import Mathlib

/-!
Verification of the van Hove / RDF correlation engine of
`pymatgen_diffusion/aimd/van_hove.py`.

The embedding follows the source closely:

* fractional coordinates and lattice matrices are rational (`ℚ`), since the
  grid, cutoff and binning arithmetic of the source is exact on the rationals
  used in the statements;
* distances are real (`ℝ`): the source takes `d2 ** 0.5`, embedded as
  `Real.sqrt`;
* `scipy.stats.norm.pdf` is embedded as `normPdf`;
* Python's `collections.Counter` is embedded as the list of bin indices in
  encounter order (`accumulateL`), and as the induced `Multiset ℤ`
  (`accumulate`) where only counts matter.  For the van Hove rows the
  `dns.most_common(ngrid)` loop is embedded as a sum over the distinct bin
  indices (`Multiset.toFinset`), which is exact there: the strict `< rmax`
  cutoff produces bins in `[0, ngrid - 2]` only, at most `ngrid - 1`
  distinct keys, so `most_common(ngrid)` never truncates.  For the RDF row
  `most_common(ngrid)` is embedded faithfully as `mostCommonKeys`: the keys
  whose rank in the count-descending order, ties broken by first-encounter
  (dict iteration) order, is within the first `ngrid`.  Python's wrapping
  list indexing `interval[indx]` for a possibly negative key is embedded as
  `pyIdx`;
* Python's `int(x)` float-to-int conversion (truncation toward zero) is
  embedded as `pyInt`;
* the `ValueError`s raised by the two constructors are embedded as the
  error cases of `Except VHError _`, classified by the spec's error names.
-/

/-- Fractional or Cartesian 3-vector with rational entries. -/
abbrev Vec3 := Fin 3 → ℚ

/-- A pymatgen structure as consumed by the source: a lattice matrix whose
rows are the lattice vectors, plus a list of sites `(specie symbol,
fractional coords)`. -/
structure Struct where
  lattice : Matrix (Fin 3) (Fin 3) ℚ
  sites : List (String × Vec3)

def defaultSite : String × Vec3 := ("", fun _ => 0)

def defaultStruct : Struct := ⟨1, []⟩

/-- `lattice.get_cartesian_coords(frac)`: row vector times lattice matrix. -/
def cartQ (L : Matrix (Fin 3) (Fin 3) ℚ) (f : Vec3) : Vec3 :=
  fun k => ∑ i, f i * L i k

/-- `np.sum(v ** 2)` over the last axis. -/
def sumSqV (v : Vec3) : ℚ := ∑ i, v i ^ 2

/-- `lattice.volume` (absolute value of the determinant). -/
def volumeQ (L : Matrix (Fin 3) (Fin 3) ℚ) : ℚ := |L.det|

/-- `dr = rmax / (ngrid - 1)` (line 68 resp. 263 of the source). -/
def drQ (rmax : ℚ) (ngrid : ℕ) : ℚ := rmax / ((ngrid : ℚ) - 1)

/-- `interval = np.linspace(0.0, rmax, ngrid)`: point `b` of the radial
grid. -/
def gridQ (rmax : ℚ) (ngrid : ℕ) (b : ℕ) : ℚ := rmax * b / ((ngrid : ℚ) - 1)

/-- `r = np.arange(-k, k + 1)` as rationals. -/
def rangeSym (k : ℕ) : List ℚ :=
  (List.range (2 * k + 1)).map (fun (i : ℕ) => (i : ℚ) - (k : ℚ))

/-- The `(2k+1)^3` translation image vectors, flattened in C order exactly as
`images.reshape((len(r)**3, 3))` does (axis `a` slowest). -/
def imagesL (k : ℕ) : List Vec3 :=
  (rangeSym k).flatMap (fun a =>
    (rangeSym k).flatMap (fun b =>
      (rangeSym k).map (fun c => ![a, b, c])))

/-- `np.argmin`: index of the first occurrence of the minimum of a list. -/
def argminIdx : List ℚ → ℕ
  | [] => 0
  | [_] => 0
  | x :: y :: rest =>
      if (y :: rest).getD (argminIdx (y :: rest)) 0 < x then argminIdx (y :: rest) + 1
      else 0

/-- `indx0 = np.argmin(np.sum(images ** 2, axis=1))`: index of the zero image
vector. -/
def imgZeroIdx (k : ℕ) : ℕ := argminIdx ((imagesL k).map sumSqV)

/-- Squared Cartesian distance between `pLater + img` and `pEarly`
(`d2[u, v, j]` of the source). -/
def pairD2 (L : Matrix (Fin 3) (Fin 3) ℚ) (pLater pEarly img : Vec3) : ℚ :=
  sumSqV (cartQ L (fun i => pLater i + img i - pEarly i))

/-- The squared distances of the pair enumeration
`[d2[u, v, j] for u in range(n) for v in range(n) for j in range(num_images)
if u != v or j != indx0]` (lines 142-144 and 284-285 of the source). -/
def pairD2List (L : Matrix (Fin 3) (Fin 3) ℚ) (n : ℕ) (later early : ℕ → Vec3) (k : ℕ) :
    List ℚ :=
  (List.range n).flatMap fun u =>
    (List.range n).flatMap fun v =>
      ((List.range (imagesL k).length).filter
        (fun j => u ≠ v ∨ j ≠ imgZeroIdx k)).map
        (fun j => pairD2 L (later u) (early v) ((imagesL k).getD j (fun _ => 0)))

/-- Python's `int(x)` conversion of a float: truncation toward zero. -/
def pyInt {α : Type} [LinearOrderedField α] [FloorRing α] (x : α) : ℤ :=
  if 0 ≤ x then ⌊x⌋ else -⌊-x⌋

/-- The cutoff-filter-and-bin step shared by all three assemblers:
`dists = filter(lambda e: e < cutoff, dists); r_indices = [int(dist / dr) for
dist in dists]`, as the list of bin indices in encounter order. -/
def accumulateL {α : Type} [LinearOrderedField α] [FloorRing α]
    (cutoff dr : α) (dists : List α) : List ℤ :=
  (dists.filter (fun e => e < cutoff)).map (fun d => pyInt (d / dr))

/-- `dns.update(r_indices)`: the `Counter` content as a multiset of bin
indices (sufficient wherever only the multiplicities matter). -/
def accumulate {α : Type} [LinearOrderedField α] [FloorRing α]
    (cutoff dr : α) (dists : List α) : Multiset ℤ :=
  ((accumulateL cutoff dr dists : List ℤ) : Multiset ℤ)

/-- `scipy.stats.norm.pdf(x, loc, scale)`. -/
noncomputable def normPdf (x μ σ : ℝ) : ℝ :=
  Real.exp (-((x - μ) / σ) ^ 2 / 2) / (σ * Real.sqrt (2 * Real.pi))

/-- Lines 80-82 of the source: `aux_factor = 4.0 * np.pi * interval ** 2`
followed by the in-place overwrite `aux_factor[0] = np.pi * dr ** 2`. -/
noncomputable def auxFactorVH (rmax : ℚ) (ngrid : ℕ) : ℕ → ℝ :=
  Function.update (fun b => 4 * Real.pi * ((gridQ rmax ngrid b : ℚ) : ℝ) ^ 2)
    0 (Real.pi * ((drQ rmax ngrid : ℚ) : ℝ) ^ 2)

/-- Lines 293-296 of the source: the RDF shell normalization `ff`. -/
noncomputable def ffRDF (rmax : ℚ) (ngrid : ℕ) (indx : ℕ) : ℝ :=
  if indx = 0 then Real.pi * ((drQ rmax ngrid : ℚ) : ℝ) ^ 2
  else 4 * Real.pi * ((gridQ rmax ngrid indx : ℚ) : ℝ) ^ 2

/-- `indices = [j for j, site in enumerate(ss) if site.specie.symbol in
species]`. -/
def matchIndices (s : Struct) (species : List String) : List ℕ :=
  (List.range s.sites.length).filter (fun j => (s.sites.getD j defaultSite).1 ∈ species)

/-- `tracking_ions[it][u]`: fractional coordinates of tracked ion `u` in
frame `it`. -/
def trackedCoord (frames : List Struct) (I : List ℕ) (it u : ℕ) : Vec3 :=
  ((frames.getD it defaultStruct).sites.getD (I.getD u 0) defaultSite).2

/-- Lines 96-97 of the source: the Gaussian kernel matrix
`norm.pdf(interval[:, None], interval[None, :], sigma) / avg_nsteps /
len(indices)`; `vhGaussians i j` is entry `[i, j]`. -/
noncomputable def vhGaussians (rmax σ : ℚ) (ngrid avg nIons : ℕ) (i j : ℕ) : ℝ :=
  normPdf ((gridQ rmax ngrid i : ℚ) : ℝ) ((gridQ rmax ngrid j : ℚ) : ℝ) ((σ : ℚ) : ℝ)
    / (avg : ℝ) / (nIons : ℝ)

/-- Lines 115-116 of the source: one row of the self part,
`gsrt[it, :] += gaussians[indx, :] * dn` summed over the counter. -/
noncomputable def vhGsrtRow (rmax σ : ℚ) (ngrid avg nIons : ℕ)
    (counts : Multiset ℤ) (b : ℕ) : ℝ :=
  ∑ indx ∈ counts.toFinset,
    vhGaussians rmax σ ngrid avg nIons indx.toNat b * (counts.count indx : ℝ)

/-- Lines 150-151 of the source: one row of the distinct part,
`gdrt[it, :] += gaussians[indx, :] * dn / aux_factor[indx] / rho` summed over
the counter. -/
noncomputable def vhGdrtRow (rmax σ : ℚ) (ngrid avg nIons : ℕ) (rho : ℝ)
    (counts : Multiset ℤ) (b : ℕ) : ℝ :=
  ∑ indx ∈ counts.toFinset,
    vhGaussians rmax σ ngrid avg nIons indx.toNat b * (counts.count indx : ℝ)
      / auxFactorVH rmax ngrid indx.toNat / rho

/-- Lines 105-109 of the source: the self-part distance list for one
averaging offset, using the caller-supplied zero image vector. -/
noncomputable def selfDists (frames : List Struct) (I : List ℕ)
    (L : Matrix (Fin 3) (Fin 3) ℚ) (it0 it1 : ℕ) : List ℝ :=
  ((List.range I.length).map (fun u =>
    pairD2 L (trackedCoord frames I (it0 + it1) u) (trackedCoord frames I it1 u)
      (fun _ => 0))).map (fun q => Real.sqrt ((q : ℚ) : ℝ))

/-- The self-part counter for reduced time step `it` (lines 101-113). -/
noncomputable def vhSelfCounts (frames : List Struct) (I : List ℕ)
    (L : Matrix (Fin 3) (Fin 3) ℚ) (rmax : ℚ) (ngrid avg ntsteps ss it : ℕ) : Multiset ℤ :=
  ((List.range avg).map (fun it1 =>
    accumulate ((rmax : ℚ) : ℝ) ((drQ rmax ngrid : ℚ) : ℝ)
      (selfDists frames I L (min (it * ss) ntsteps) it1))).sum

/-- Lines 136-144 of the source: distinct-part distances between times
`it1` (early, index `v`) and `it0 + it1` (later, index `u`). -/
noncomputable def distinctDists (frames : List Struct) (I : List ℕ)
    (L : Matrix (Fin 3) (Fin 3) ℚ) (k it0 it1 : ℕ) : List ℝ :=
  (pairD2List L I.length
    (fun u => trackedCoord frames I (it0 + it1) u)
    (fun v => trackedCoord frames I it1 v) k).map (fun q => Real.sqrt ((q : ℚ) : ℝ))

/-- The distinct-part counter for reduced time step `it` (lines 131-148). -/
noncomputable def vhDistinctCounts (frames : List Struct) (I : List ℕ)
    (L : Matrix (Fin 3) (Fin 3) ℚ) (rmax : ℚ) (ngrid avg ntsteps ss it : ℕ) : Multiset ℤ :=
  ((List.range avg).map (fun it1 =>
    accumulate ((rmax : ℚ) : ℝ) ((drQ rmax ngrid : ℚ) : ℝ)
      (distinctDists frames I L 1 (min (it * ss) ntsteps) it1))).sum

/-- The two output arrays of `VanHoveAnalysis`, as total functions
`[reduced time step] → [radial bin] → value`. -/
structure VHOut where
  gsrt : ℕ → ℕ → ℝ
  gdrt : ℕ → ℕ → ℝ

/-- The error classification of the spec for the `ValueError`s of the
source. -/
inductive VHError where
  | invalidParameter
  | insufficientData
  | emptySpecies
deriving DecidableEq

/-- The computation performed by `VanHoveAnalysis.__init__` after its
parameter checks pass. -/
noncomputable def vhBody (frames : List Struct) (avg ngrid : ℕ) (rmax : ℚ)
    (ss : ℕ) (σ : ℚ) (species : List String) : VHOut :=
  let ntsteps := frames.length - avg
  let f0 := frames.headD defaultStruct
  let L := f0.lattice
  let I := matchIndices f0 species
  let rho : ℝ := (I.length : ℝ) / ((volumeQ L : ℚ) : ℝ)
  ⟨fun it b => vhGsrtRow rmax σ ngrid avg I.length
      (vhSelfCounts frames I L rmax ngrid avg ntsteps ss it) b,
   fun it b => vhGdrtRow rmax σ ngrid avg I.length rho
      (vhDistinctCounts frames I L rmax ngrid avg ntsteps ss it) b⟩

/-- `VanHoveAnalysis.__init__` (lines 34-159): the four parameter checks in
source order, then the construction of the output arrays. -/
noncomputable def vanHoveInit (frames : List Struct) (avg ngrid : ℕ) (rmax : ℚ)
    (step_skip : ℤ) (σ : ℚ) (species : List String) : Except VHError VHOut :=
  if step_skip ≤ 0 then .error .invalidParameter
  else if frames.length ≤ avg then .error .insufficientData
  else if ngrid - 1 ≤ 0 then .error .invalidParameter
  else if σ ≤ 0 then .error .invalidParameter
  else .ok (vhBody frames avg ngrid rmax step_skip.toNat σ species)

/-- The output array of `RadialDistributionFunction`. -/
structure RDFOut where
  rdf : ℕ → ℝ

/-- Python list indexing `interval[indx]` for a possibly negative index: a
negative index wraps around (`interval[-j]` is `interval[ngrid - j]`). -/
def pyIdx (ngrid : ℕ) (indx : ℤ) : ℕ :=
  if indx < 0 then ((ngrid : ℤ) + indx).toNat else indx.toNat

/-- Lines 293-296 of the source applied to a raw (possibly negative) counter
key: the RDF shell normalization `ff`, with `interval[indx]` read through
Python's wrapping list indexing. -/
noncomputable def ffRDFIdx (rmax : ℚ) (ngrid : ℕ) (indx : ℤ) : ℝ :=
  if indx = 0 then Real.pi * ((drQ rmax ngrid : ℚ) : ℝ) ^ 2
  else 4 * Real.pi * ((gridQ rmax ngrid (pyIdx ngrid indx) : ℚ) : ℝ) ^ 2

/-- The keys of the Counter in first-encounter order (the dict iteration
order underlying `most_common`'s tie-breaking). -/
def keysInOrder (l : List ℤ) : List ℤ :=
  l.foldl (fun acc x => if x ∈ acc then acc else acc ++ [x]) []

/-- `dns.most_common(n)` (line 290), keys only: a key is selected iff at
most `n` keys rank at or above it in the count-descending order, where `j`
ranks at or above `k` when `j` has a strictly larger count, or an equal
count and a first-encounter position no later than `k`'s (Python's
`most_common` sorts by count with a stable sort over dict order). -/
def mostCommonKeys (binList : List ℤ) (n : ℕ) : List ℤ :=
  (keysInOrder binList).filter (fun k =>
    ((keysInOrder binList).filter (fun j =>
      binList.count k < binList.count j
        ∨ (binList.count j = binList.count k
            ∧ (keysInOrder binList).indexOf j ≤ (keysInOrder binList).indexOf k))).length ≤ n)

/-- Lines 280-288 of the source: the bin-index list contributed by one
structure of the ensemble, in encounter order; the RDF cutoff is
`rmax + 1e-8`. -/
noncomputable def structCountsL (L : Matrix (Fin 3) (Fin 3) ℚ) (I : List ℕ)
    (rmax : ℚ) (ngrid k : ℕ) (s : Struct) : List ℤ :=
  accumulateL (((rmax : ℚ) : ℝ) + 1 / 100000000) ((drQ rmax ngrid : ℚ) : ℝ)
    ((pairD2List L I.length
      (fun u => (s.sites.getD (I.getD u 0) defaultSite).2)
      (fun v => (s.sites.getD (I.getD v 0) defaultSite).2) k).map
      (fun q => Real.sqrt ((q : ℚ) : ℝ)))

/-- The content of the Counter `dns` of lines 266-288: the per-structure bin
indices concatenated in structure order (`dns.update` per structure). -/
noncomputable def rdfBinList (structs : List Struct) (ngrid : ℕ) (rmax : ℚ)
    (k : ℕ) (species : List String) : List ℤ :=
  (structs.map (structCountsL (structs.headD defaultStruct).lattice
    (matchIndices (structs.headD defaultStruct) species) rmax ngrid k)).flatten

/-- Lines 290-299 of the source: the final RDF normalization loop
`for indx, dn in dns.most_common(ngrid)`, including the explicit skip
`if indx > len(interval) - 1: continue` and Python's wrapping list indexing
`interval[indx]`. -/
noncomputable def rdfRowL (rmax σ : ℚ) (ngrid nIons nStructs : ℕ) (rho : ℝ)
    (binList : List ℤ) (b : ℕ) : ℝ :=
  ((mostCommonKeys binList ngrid).map (fun indx =>
    if (ngrid : ℤ) - 1 < indx then 0
    else normPdf ((gridQ rmax ngrid b : ℚ) : ℝ)
        ((gridQ rmax ngrid (pyIdx ngrid indx) : ℚ) : ℝ) ((σ : ℚ) : ℝ)
      * (binList.count indx : ℝ)
      / (nIons : ℝ) / ffRDFIdx rmax ngrid indx / rho / (nStructs : ℝ))).sum

/-- The computation performed by `RadialDistributionFunction.__init__` after
its checks pass (lines 249-299). -/
noncomputable def rdfBody (structs : List Struct) (ngrid : ℕ) (rmax : ℚ)
    (k : ℕ) (σ : ℚ) (species : List String) : RDFOut :=
  let s0 := structs.headD defaultStruct
  let I := matchIndices s0 species
  let rho : ℝ := (I.length : ℝ) / ((volumeQ s0.lattice : ℚ) : ℝ)
  ⟨fun b => rdfRowL rmax σ ngrid I.length structs.length rho
    (rdfBinList structs ngrid rmax k species) b⟩

/-- `RadialDistributionFunction.__init__` (lines 228-307): the checks in
source order (`ngrid`, `sigma`, then the empty species selection), then the
construction of the output array. -/
noncomputable def rdfInit (structs : List Struct) (ngrid : ℕ) (rmax : ℚ)
    (cellrange : ℕ) (σ : ℚ) (species : List String) : Except VHError RDFOut :=
  if ngrid - 1 ≤ 0 then .error .invalidParameter
  else if σ ≤ 0 then .error .invalidParameter
  else if (matchIndices (structs.headD defaultStruct) species).length = 0 then
    .error .emptySpecies
  else .ok (rdfBody structs ngrid rmax cellrange σ species)

/-- `Except.isOk`. -/
def isOkE {ε α : Type} : Except ε α → Bool
  | .ok _ => true
  | .error _ => false

/-! ### Concrete inputs used by witnesses and counterexamples -/

/-- The identity lattice matrix (a cubic cell of edge 1), written as a plain
function so that concrete goals about it evaluate. -/
def idLat : Matrix (Fin 3) (Fin 3) ℚ := fun i j => if i = j then 1 else 0

/-- A cubic (identity-lattice) structure with two Li sites at fractional
`(0,0,0)` and `(1/2,0,0)`. -/
def sLi : Struct := ⟨idLat, [("Li", ![0, 0, 0]), ("Li", ![1/2, 0, 0])]⟩

/-- A structure containing no Li/Na site at all. -/
def sO : Struct := ⟨idLat, [("O", ![0, 0, 0])]⟩

/-! ### C1: parameter validation -/

/-- C1 (amended): `step_skip ≤ 0` (van Hove), `ngrid < 2` and `sigma ≤ 0`
(both classes) each fail with `InvalidParameter`; for the van Hove class the
`ngrid`/`sigma` checks are reached once the trajectory-length check passes.
`rmax` is not validated by either constructor. -/
theorem claim_C1 (frames : List Struct) (avg ngrid : ℕ) (rmax : ℚ) (ss : ℤ)
    (σ : ℚ) (sp : List String) (structs : List Struct) (cr : ℕ) :
    (ss ≤ 0 → vanHoveInit frames avg ngrid rmax ss σ sp = .error .invalidParameter)
    ∧ (avg < frames.length → ngrid < 2 →
        vanHoveInit frames avg ngrid rmax ss σ sp = .error .invalidParameter)
    ∧ (avg < frames.length → σ ≤ 0 →
        vanHoveInit frames avg ngrid rmax ss σ sp = .error .invalidParameter)
    ∧ (ngrid < 2 → rdfInit structs ngrid rmax cr σ sp = .error .invalidParameter)
    ∧ (σ ≤ 0 → rdfInit structs ngrid rmax cr σ sp = .error .invalidParameter) := by
  refine ⟨fun h => ?_, fun ha hn => ?_, fun ha hσ => ?_, fun hn => ?_, fun hσ => ?_⟩
  · unfold vanHoveInit
    rw [if_pos h]
  · unfold vanHoveInit
    split_ifs <;> first | rfl | omega
  · unfold vanHoveInit
    split_ifs <;> first | rfl | omega
  · unfold rdfInit
    rw [if_pos (by omega : ngrid - 1 ≤ 0)]
  · unfold rdfInit
    split_ifs <;> rfl

/-- C1 witness: `step_skip = 0` fails with `InvalidParameter`. -/
theorem claim_C1_witness :
    vanHoveInit [] 50 101 10 0 1 ["Li"] = .error .invalidParameter :=
  (claim_C1 [] 50 101 10 0 1 ["Li"] [] 1).1 le_rfl

/-- C1 counterexample: with `rmax = -1 ≤ 0` and every other parameter valid,
both constructions succeed instead of failing with `InvalidParameter`. -/
theorem claim_C1_counterexample :
    isOkE (vanHoveInit [sLi, sLi] 1 2 (-1) 1 1 ["Li"]) = true
      ∧ isOkE (rdfInit [sLi] 2 (-1) 1 1 ["Li"]) = true := by
  constructor
  · rfl
  · rfl

/-! ### C2: empty species selection -/

/-- C2 (amended): the RDF constructor fails with `EmptySpeciesSelection`
when no atom of the first structure matches the species filter (once the
`ngrid`/`sigma` checks pass); the van Hove constructor performs no such
check and construction proceeds. -/
theorem claim_C2 (structs : List Struct) (ngrid : ℕ) (rmax : ℚ) (cr : ℕ)
    (σ : ℚ) (sp : List String) (frames : List Struct) (avg : ℕ) (rmax2 : ℚ)
    (ss : ℤ) (σ2 : ℚ) :
    (2 ≤ ngrid → 0 < σ →
      matchIndices (structs.headD defaultStruct) sp = [] →
      rdfInit structs ngrid rmax cr σ sp = .error .emptySpecies)
    ∧ (0 < ss → avg < frames.length → 2 ≤ ngrid → 0 < σ2 →
      isOkE (vanHoveInit frames avg ngrid rmax2 ss σ2 sp) = true) := by
  constructor
  · intro hn hσ hI
    unfold rdfInit
    rw [if_neg (by omega), if_neg (not_le.mpr hσ), if_pos (by rw [hI]; rfl)]
  · intro hss ha hn hσ
    unfold vanHoveInit
    rw [if_neg (not_le.mpr hss), if_neg (not_le.mpr ha), if_neg (by omega),
      if_neg (not_le.mpr hσ)]
    rfl

/-- C2 witness: a species filter matching no atom makes the RDF constructor
fail with `EmptySpeciesSelection`, while the van Hove constructor succeeds. -/
theorem claim_C2_witness :
    rdfInit [sO] 2 10 1 1 ["Li"] = .error .emptySpecies
      ∧ isOkE (vanHoveInit [sO, sO] 1 2 10 1 1 ["Li"]) = true :=
  ⟨(claim_C2 [sO] 2 10 1 1 ["Li"] [sO, sO] 1 10 1 1).1
      (by norm_num) (by norm_num) (by decide),
   (claim_C2 [sO] 2 10 1 1 ["Li"] [sO, sO] 1 10 1 1).2
      (by norm_num) (by decide) (by norm_num) (by norm_num)⟩

/-- C2 counterexample: the van Hove construction with a species filter
matching no atom succeeds (no `EmptySpeciesSelection` is raised). -/
theorem claim_C2_counterexample :
    isOkE (vanHoveInit [sO, sO] 1 2 10 1 1 ["Li"]) = true := by
  rfl

/-! ### C7: trajectory-length check -/

/-- C7 (amended): the van Hove construction fails with `InsufficientData`
exactly when `step_skip` is valid and the trajectory has at most
`avg_nsteps` steps; equality `nsteps = avg_nsteps` also fails, so the check
passes only with strictly more steps than the averaging window. -/
theorem claim_C7 (frames : List Struct) (avg ngrid : ℕ) (rmax : ℚ) (ss : ℤ)
    (σ : ℚ) (sp : List String) :
    vanHoveInit frames avg ngrid rmax ss σ sp = .error .insufficientData
      ↔ 0 < ss ∧ frames.length ≤ avg := by
  unfold vanHoveInit
  split_ifs with h1 h2 h3 h4 <;> simp_all

/-- C7 counterexample: a trajectory with exactly `avg_nsteps` steps (here
`nsteps = avg_nsteps = 1`, not fewer) still fails with `InsufficientData`. -/
theorem claim_C7_counterexample :
    vanHoveInit [sLi] 1 101 10 50 1 ["Li"] = .error .insufficientData := by
  rfl

/-! ### C4: shell-area normalization -/

/-- C4: in both shell-area normalizations (van Hove `aux_factor` array and
RDF `ff`), bin 0 is normalized by the disk area `π·dr²`, and every bin
`b ≥ 1` by the spherical shell area `4·π·r_b²` with `r_b` the grid point of
bin `b`. -/
theorem claim_C4 (rmax : ℚ) (ngrid : ℕ) (b : ℕ) (hb : 1 ≤ b) :
    auxFactorVH rmax ngrid 0 = Real.pi * ((drQ rmax ngrid : ℚ) : ℝ) ^ 2
    ∧ auxFactorVH rmax ngrid b = 4 * Real.pi * ((gridQ rmax ngrid b : ℚ) : ℝ) ^ 2
    ∧ ffRDF rmax ngrid 0 = Real.pi * ((drQ rmax ngrid : ℚ) : ℝ) ^ 2
    ∧ ffRDF rmax ngrid b = 4 * Real.pi * ((gridQ rmax ngrid b : ℚ) : ℝ) ^ 2 := by
  refine ⟨?_, ?_, ?_, ?_⟩
  · unfold auxFactorVH
    rw [Function.update_same]
  · unfold auxFactorVH
    rw [Function.update_noteq (by omega : b ≠ 0)]
  · unfold ffRDF
    rw [if_pos rfl]
  · unfold ffRDF
    rw [if_neg (by omega : ¬ b = 0)]

/-- C4 witness at `rmax = 10`, `ngrid = 101`, `b = 1`. -/
theorem claim_C4_witness :
    auxFactorVH 10 101 0 = Real.pi * ((drQ 10 101 : ℚ) : ℝ) ^ 2
    ∧ auxFactorVH 10 101 1 = 4 * Real.pi * ((gridQ 10 101 1 : ℚ) : ℝ) ^ 2
    ∧ ffRDF 10 101 0 = Real.pi * ((drQ 10 101 : ℚ) : ℝ) ^ 2
    ∧ ffRDF 10 101 1 = 4 * Real.pi * ((gridQ 10 101 1 : ℚ) : ℝ) ^ 2 :=
  claim_C4 10 101 1 (by norm_num)

/-! ### C5: cutoff and binning of the histogram accumulation -/

/-- C5: for non-negative distances and positive bin width, the accumulation
discards exactly the distances `≥ cutoff` and tallies each survivor `d` in
bin `⌊d / dr⌋`; a distance exactly `rmax` is kept (in bin `⌊rmax/dr⌋`) by
the RDF cutoff `rmax + 1e-8` but discarded by the van Hove cutoff `rmax`. -/
theorem claim_C5 (c rmax dr : ℝ) (dists : List ℝ)
    (hd : ∀ d ∈ dists, 0 ≤ d) (hdr : 0 < dr) (hr : 0 ≤ rmax) :
    accumulate c dr dists
        = (((dists.filter (fun d => ¬ c ≤ d)).map (fun d => ⌊d / dr⌋) : List ℤ) : Multiset ℤ)
    ∧ accumulate (rmax + 1 / 100000000) dr [rmax] = {⌊rmax / dr⌋}
    ∧ accumulate rmax dr [rmax] = 0 := by
  have hfloor : ∀ d ∈ dists, pyInt (d / dr) = ⌊d / dr⌋ := by
    intro d hdd
    unfold pyInt
    rw [if_pos (div_nonneg (hd d hdd) hdr.le)]
  refine ⟨?_, ?_, ?_⟩
  · unfold accumulate accumulateL
    have hfil : dists.filter (fun e => decide (e < c))
        = dists.filter (fun d => decide (¬ c ≤ d)) := by
      apply List.filter_congr
      intro x _
      exact decide_eq_decide.mpr not_le.symm
    rw [hfil]
    congr 1
    apply List.map_congr_left
    intro x hx
    exact hfloor x (List.mem_filter.mp hx).1
  · have h1 : rmax < rmax + 1 / 100000000 := by linarith
    have h2 : (0:ℝ) ≤ rmax / dr := div_nonneg hr hdr.le
    unfold accumulate accumulateL
    rw [List.filter_cons_of_pos (by simp [h1]), List.filter_nil,
      List.map_cons, List.map_nil]
    unfold pyInt
    rw [if_pos h2]
    rfl
  · unfold accumulate accumulateL
    rw [List.filter_cons_of_neg (by simp [lt_irrefl])]
    rfl

/-- C5 witness at `cutoff = rmax = 2`, `dr = 1`, a single distance exactly at
the boundary. -/
theorem claim_C5_witness :
    accumulate ((2:ℝ) + 1 / 100000000) 1 [2] = {⌊(2:ℝ) / 1⌋} :=
  (claim_C5 2 2 1 [2] (by norm_num) (by norm_num) (by norm_num)).2.1

/-! ### C10: bin indices stay in range -/

/-- C10: every bin index produced by the cutoff-filtered binning is within
range: under the van Hove cutoff `< rmax` it lies in `[0, ngrid-2]` (so the
kernel row indexing is in bounds), and under the RDF cutoff `< rmax + 1e-8`
(assuming `1e-8 < dr`) it lies in `[0, ngrid-1]`, making the explicit
out-of-range skip branch `indx > len(interval) - 1` unreachable. -/
theorem claim_C10 (rmax : ℚ) (ngrid : ℕ) (dists : List ℝ) (i : ℤ)
    (hn : 2 ≤ ngrid) (hr : 0 < rmax) (hd : ∀ d ∈ dists, 0 ≤ d) :
    (i ∈ accumulate ((rmax : ℚ) : ℝ) ((drQ rmax ngrid : ℚ) : ℝ) dists →
      0 ≤ i ∧ i ≤ (ngrid : ℤ) - 2)
    ∧ ((1 / 100000000 : ℚ) < drQ rmax ngrid →
      i ∈ accumulate (((rmax : ℚ) : ℝ) + 1 / 100000000) ((drQ rmax ngrid : ℚ) : ℝ) dists →
      0 ≤ i ∧ i ≤ (ngrid : ℤ) - 1 ∧ ¬ ((ngrid : ℤ) - 1 < i)) := by
  have hden : (0:ℚ) < (ngrid : ℚ) - 1 := by
    have : (2:ℚ) ≤ (ngrid : ℚ) := by exact_mod_cast hn
    linarith
  have hdrpos : (0:ℚ) < drQ rmax ngrid := div_pos hr hden
  have hdrR : (0:ℝ) < ((drQ rmax ngrid : ℚ) : ℝ) := by exact_mod_cast hdrpos
  have hkey : ((rmax : ℚ) : ℝ) = ((drQ rmax ngrid : ℚ) : ℝ) * ((ngrid : ℝ) - 1) := by
    have h1 : (drQ rmax ngrid) * ((ngrid : ℚ) - 1) = rmax := by
      unfold drQ
      field_simp
    calc ((rmax : ℚ) : ℝ) = (((drQ rmax ngrid) * ((ngrid : ℚ) - 1) : ℚ) : ℝ) := by rw [h1]
      _ = ((drQ rmax ngrid : ℚ) : ℝ) * ((ngrid : ℝ) - 1) := by push_cast; ring
  have hmem : ∀ (c : ℝ), i ∈ accumulate c ((drQ rmax ngrid : ℚ) : ℝ) dists →
      ∃ d, d ∈ dists ∧ 0 ≤ d ∧ d < c ∧ i = ⌊d / ((drQ rmax ngrid : ℚ) : ℝ)⌋ := by
    intro c hi
    unfold accumulate accumulateL at hi
    rw [Multiset.mem_coe, List.mem_map] at hi
    obtain ⟨d, hdf, hpy⟩ := hi
    have hdd := (List.mem_filter.mp hdf).1
    have hlt : d < c := by
      have := (List.mem_filter.mp hdf).2
      simpa using this
    refine ⟨d, hdd, hd d hdd, hlt, ?_⟩
    rw [← hpy]
    unfold pyInt
    rw [if_pos (div_nonneg (hd d hdd) hdrR.le)]
  constructor
  · intro hi
    obtain ⟨d, hdd, hd0, hlt, hieq⟩ := hmem _ hi
    subst hieq
    constructor
    · exact Int.floor_nonneg.mpr (div_nonneg hd0 hdrR.le)
    · have hfl : ⌊d / ((drQ rmax ngrid : ℚ) : ℝ)⌋ < (ngrid : ℤ) - 1 := by
        rw [Int.floor_lt]
        push_cast
        rw [div_lt_iff₀ hdrR]
        calc d < ((rmax : ℚ) : ℝ) := hlt
          _ = ((drQ rmax ngrid : ℚ) : ℝ) * ((ngrid : ℝ) - 1) := hkey
          _ = ((ngrid : ℝ) - 1) * ((drQ rmax ngrid : ℚ) : ℝ) := by ring
      omega
  · intro heps hi
    obtain ⟨d, hdd, hd0, hlt, hieq⟩ := hmem _ hi
    subst hieq
    have hepsR : (1 / 100000000 : ℝ) < ((drQ rmax ngrid : ℚ) : ℝ) := by
      have h : ((1 / 100000000 : ℚ) : ℝ) < ((drQ rmax ngrid : ℚ) : ℝ) := by
        exact_mod_cast heps
      push_cast at h
      exact h
    have h0 : 0 ≤ ⌊d / ((drQ rmax ngrid : ℚ) : ℝ)⌋ :=
      Int.floor_nonneg.mpr (div_nonneg hd0 hdrR.le)
    have hfl : ⌊d / ((drQ rmax ngrid : ℚ) : ℝ)⌋ < (ngrid : ℤ) := by
      rw [Int.floor_lt]
      push_cast
      rw [div_lt_iff₀ hdrR]
      calc d < ((rmax : ℚ) : ℝ) + 1 / 100000000 := hlt
        _ < ((drQ rmax ngrid : ℚ) : ℝ) * ((ngrid : ℝ) - 1)
            + ((drQ rmax ngrid : ℚ) : ℝ) := by rw [← hkey]; linarith
        _ = (ngrid : ℝ) * ((drQ rmax ngrid : ℚ) : ℝ) := by ring
    exact ⟨h0, by omega, by omega⟩

/-- C10 witness at `rmax = 1`, `ngrid = 2`, one in-range distance `1/2`. -/
theorem claim_C10_witness :
    (0 ≤ (0:ℤ) ∧ (0:ℤ) ≤ ((2:ℕ) : ℤ) - 2)
    ∧ (0 ≤ (0:ℤ) ∧ (0:ℤ) ≤ ((2:ℕ) : ℤ) - 1 ∧ ¬ (((2:ℕ) : ℤ) - 1 < 0)) := by
  have hmem1 : (0:ℤ) ∈ accumulate ((1 : ℚ) : ℝ) ((drQ 1 2 : ℚ) : ℝ) [(1/2 : ℝ)] := by
    norm_num [accumulate, accumulateL, pyInt, drQ]
  have hmem2 : (0:ℤ) ∈ accumulate (((1 : ℚ) : ℝ) + 1 / 100000000)
      ((drQ 1 2 : ℚ) : ℝ) [(1/2 : ℝ)] := by
    norm_num [accumulate, accumulateL, pyInt, drQ]
  exact ⟨(claim_C10 1 2 [(1/2 : ℝ)] 0 (by norm_num) (by norm_num) (by norm_num)).1 hmem1,
    (claim_C10 1 2 [(1/2 : ℝ)] 0 (by norm_num) (by norm_num) (by norm_num)).2
      (by norm_num [drQ]) hmem2⟩

/-! ### C6: pair enumeration -/

lemma length_rangeSym (k : ℕ) : (rangeSym k).length = 2 * k + 1 := by
  unfold rangeSym
  rw [List.length_map, List.length_range]

lemma sum_map_const_nat {α : Type} {g : α → ℕ} {c : ℕ} (l : List α)
    (h : ∀ a ∈ l, g a = c) : (l.map g).sum = l.length * c := by
  induction l with
  | nil => simp
  | cons x xs ih =>
    simp only [List.map_cons, List.sum_cons, List.length_cons]
    rw [h x (by simp), ih (fun a ha => h a (by simp [ha]))]
    ring

lemma length_imagesL (k : ℕ) : (imagesL k).length = (2 * k + 1) ^ 3 := by
  unfold imagesL
  rw [List.length_flatMap]
  have h1 : ∀ a ∈ rangeSym k,
      (List.length ∘ fun a =>
        (rangeSym k).flatMap fun b => (rangeSym k).map fun c => ![a, b, c]) a
      = (2 * k + 1) * (2 * k + 1) := by
    intro a _
    simp only [Function.comp_apply]
    rw [List.length_flatMap]
    have h2 : ∀ b ∈ rangeSym k,
        (List.length ∘ fun b => (rangeSym k).map fun c => ![a, b, c]) b = 2 * k + 1 := by
      intro b _
      simp only [Function.comp_apply, List.length_map]
      exact length_rangeSym k
    rw [sum_map_const_nat _ h2, length_rangeSym]
  rw [sum_map_const_nat _ h1, length_rangeSym]
  ring

lemma argminIdx_lt_length : ∀ (l : List ℚ), l ≠ [] → argminIdx l < l.length
  | [], h => absurd rfl h
  | [_], _ => by simp [argminIdx]
  | x :: y :: rest, _ => by
    have ih := argminIdx_lt_length (y :: rest) (by simp)
    rw [show argminIdx (x :: y :: rest)
        = if (y :: rest).getD (argminIdx (y :: rest)) 0 < x
          then argminIdx (y :: rest) + 1 else 0 from rfl]
    split_ifs
    · simp only [List.length_cons] at ih ⊢
      omega
    · simp

lemma argminIdx_getD_le : ∀ (l : List ℚ), ∀ x ∈ l, l.getD (argminIdx l) 0 ≤ x
  | [], x, hx => absurd hx (by simp)
  | [a], x, hx => by
    rw [List.mem_singleton] at hx
    subst hx
    simp [argminIdx]
  | a :: y :: rest, x, hx => by
    have ih := argminIdx_getD_le (y :: rest)
    rw [show argminIdx (a :: y :: rest)
        = if (y :: rest).getD (argminIdx (y :: rest)) 0 < a
          then argminIdx (y :: rest) + 1 else 0 from rfl]
    split_ifs with hlt
    · rw [List.getD_cons_succ]
      rcases List.mem_cons.mp hx with h | h
      · subst h
        exact le_of_lt hlt
      · exact ih x h
    · rw [List.getD_cons_zero]
      rcases List.mem_cons.mp hx with h | h
      · subst h
        exact le_rfl
      · exact le_trans (not_lt.mp hlt) (ih x h)

lemma filter_ne_range_length (i0 : ℕ) : ∀ (M : ℕ), i0 < M →
    ((List.range M).filter (fun j => decide (¬ j = i0))).length = M - 1 := by
  intro M
  induction M with
  | zero => omega
  | succ M ih =>
    intro h
    rw [List.range_succ, List.filter_append, List.length_append]
    by_cases hM : i0 = M
    · subst hM
      have hall : (List.range i0).filter (fun j => decide (¬ j = i0)) = List.range i0 := by
        apply List.filter_eq_self.mpr
        intro a ha
        have := List.mem_range.mp ha
        simp only [decide_eq_true_eq]
        omega
      have hone : ([i0].filter (fun j => decide (¬ j = i0))).length = 0 := by
        simp
      rw [hall, hone, List.length_range]
      omega
    · rw [ih (by omega)]
      have hone : ([M].filter (fun j => decide (¬ j = i0))).length = 1 := by
        rw [List.filter_cons_of_pos (by simp; omega)]
        rfl
      rw [hone]
      omega

lemma sumSqV_nonneg (v : Vec3) : 0 ≤ sumSqV v :=
  Finset.sum_nonneg (fun i _ => sq_nonneg (v i))

lemma sumSqV_eq_zero {v : Vec3} (h : sumSqV v = 0) : v = fun _ => 0 := by
  funext i
  have h2 := (Finset.sum_eq_zero_iff_of_nonneg
    (fun j _ => sq_nonneg (v j))).mp h i (Finset.mem_univ i)
  exact (pow_eq_zero_iff (two_ne_zero)).mp h2

lemma imgZeroIdx_lt (k : ℕ) : imgZeroIdx k < (imagesL k).length := by
  have hlen : 0 < ((imagesL k).map sumSqV).length := by
    rw [List.length_map, length_imagesL]
    positivity
  have h := argminIdx_lt_length _ (List.length_pos.mp hlen)
  rw [List.length_map] at h
  exact h

lemma zero_mem_map_sumSqV (k : ℕ) : (0:ℚ) ∈ (imagesL k).map sumSqV := by
  have hmem0 : (0:ℚ) ∈ rangeSym k := by
    unfold rangeSym
    rw [List.mem_map]
    exact ⟨k, List.mem_range.mpr (by omega), by ring⟩
  rw [List.mem_map]
  refine ⟨![0, 0, 0], ?_, by simp [sumSqV, Fin.sum_univ_three]⟩
  unfold imagesL
  rw [List.mem_flatMap]
  refine ⟨(0:ℚ), hmem0, ?_⟩
  rw [List.mem_flatMap]
  refine ⟨(0:ℚ), hmem0, ?_⟩
  rw [List.mem_map]
  exact ⟨(0:ℚ), hmem0, rfl⟩

lemma getD_imgZeroIdx (k : ℕ) :
    (imagesL k).getD (imgZeroIdx k) (fun _ => 0) = fun _ => (0:ℚ) := by
  have hlt := imgZeroIdx_lt k
  have hltm : imgZeroIdx k < ((imagesL k).map sumSqV).length := by
    rw [List.length_map]
    exact hlt
  have hgetD : ((imagesL k).map sumSqV).getD (imgZeroIdx k) 0
      = sumSqV ((imagesL k).getD (imgZeroIdx k) (fun _ => 0)) := by
    rw [List.getD_eq_getElem _ _ hltm, List.getD_eq_getElem _ _ hlt, List.getElem_map]
  have hle : ((imagesL k).map sumSqV).getD (imgZeroIdx k) 0 ≤ 0 :=
    argminIdx_getD_le ((imagesL k).map sumSqV) 0 (zero_mem_map_sumSqV k)
  have hge : 0 ≤ ((imagesL k).map sumSqV).getD (imgZeroIdx k) 0 := by
    rw [hgetD]
    exact sumSqV_nonneg _
  exact sumSqV_eq_zero (by rw [← hgetD]; exact le_antisymm hle hge)

lemma list_sum_map_range (g : ℕ → ℕ) (n : ℕ) :
    ((List.range n).map g).sum = ∑ v ∈ Finset.range n, g v := by
  induction n with
  | zero => simp
  | succ n ih =>
    rw [List.range_succ, List.map_append, List.sum_append, Finset.sum_range_succ, ih]
    simp

/-- C6: the pair enumeration over `n` tracked atoms and `(2k+1)^3` images
excludes exactly the self pair `u = v` at the zero image (the image selected
by `argmin` is indeed the zero vector), so the candidate distance list has
length `n(n-1)·num_images + n(num_images - 1)`. -/
theorem claim_C6 (L : Matrix (Fin 3) (Fin 3) ℚ) (n : ℕ) (later early : ℕ → Vec3)
    (k : ℕ) :
    (imagesL k).length = (2 * k + 1) ^ 3
    ∧ (pairD2List L n later early k).length
        = n * (n - 1) * (2 * k + 1) ^ 3 + n * ((2 * k + 1) ^ 3 - 1)
    ∧ (imagesL k).getD (imgZeroIdx k) (fun _ => 0) = fun _ => (0:ℚ) := by
  refine ⟨length_imagesL k, ?_, getD_imgZeroIdx k⟩
  have hi0 : imgZeroIdx k < (imagesL k).length := imgZeroIdx_lt k
  have hinner : ∀ u v : ℕ,
      (((List.range (imagesL k).length).filter
        (fun j => decide (u ≠ v ∨ j ≠ imgZeroIdx k))).map
        (fun j => pairD2 L (later u) (early v) ((imagesL k).getD j (fun _ => 0)))).length
      = if u = v then (2 * k + 1) ^ 3 - 1 else (2 * k + 1) ^ 3 := by
    intro u v
    rw [List.length_map]
    by_cases huv : u = v
    · subst huv
      rw [if_pos rfl]
      have hcong : (List.range (imagesL k).length).filter
            (fun j => decide (u ≠ u ∨ j ≠ imgZeroIdx k))
          = (List.range (imagesL k).length).filter (fun j => decide (¬ j = imgZeroIdx k)) := by
        apply List.filter_congr
        intro j _
        apply decide_eq_decide.mpr
        simp
      rw [hcong, length_imagesL]
      exact filter_ne_range_length _ _ (by rw [← length_imagesL k]; exact hi0)
    · rw [if_neg huv]
      have hall : (List.range (imagesL k).length).filter
            (fun j => decide (u ≠ v ∨ j ≠ imgZeroIdx k))
          = List.range (imagesL k).length := by
        apply List.filter_eq_self.mpr
        intro a _
        simp [huv]
      rw [hall, List.length_range, length_imagesL]
  unfold pairD2List
  rw [List.length_flatMap]
  have houter : ∀ u ∈ List.range n,
      (List.length ∘ fun u => (List.range n).flatMap fun v =>
        ((List.range (imagesL k).length).filter
          (fun j => decide (u ≠ v ∨ j ≠ imgZeroIdx k))).map
          (fun j => pairD2 L (later u) (early v) ((imagesL k).getD j (fun _ => 0)))) u
      = (n - 1) * (2 * k + 1) ^ 3 + ((2 * k + 1) ^ 3 - 1) := by
    intro u hu
    have hu' : u ∈ Finset.range n := by
      rw [Finset.mem_range]
      exact List.mem_range.mp hu
    simp only [Function.comp_apply]
    rw [List.length_flatMap]
    calc (List.map (List.length ∘ fun v =>
            ((List.range (imagesL k).length).filter
              (fun j => decide (u ≠ v ∨ j ≠ imgZeroIdx k))).map
              (fun j => pairD2 L (later u) (early v) ((imagesL k).getD j (fun _ => 0))))
            (List.range n)).sum
        = ∑ v ∈ Finset.range n, (if u = v then (2 * k + 1) ^ 3 - 1 else (2 * k + 1) ^ 3) := by
          rw [list_sum_map_range]
          exact Finset.sum_congr rfl (fun v _ => hinner u v)
      _ = (n - 1) * (2 * k + 1) ^ 3 + ((2 * k + 1) ^ 3 - 1) := by
          rw [← Finset.sum_erase_add _ _ hu', if_pos rfl]
          have hconst : ∀ v ∈ (Finset.range n).erase u,
              (if u = v then (2 * k + 1) ^ 3 - 1 else (2 * k + 1) ^ 3) = (2 * k + 1) ^ 3 :=
            fun v hv => if_neg (fun h => (Finset.mem_erase.mp hv).1 h.symm)
          rw [Finset.sum_congr rfl hconst, Finset.sum_const,
            Finset.card_erase_of_mem hu', Finset.card_range, smul_eq_mul]
  rw [sum_map_const_nat _ houter, List.length_range, Nat.mul_add, ← Nat.mul_assoc]

/-! ### C3: distinct-part normalization -/

lemma normPdf_nonneg (x μ σ : ℝ) (h : 0 ≤ σ) : 0 ≤ normPdf x μ σ := by
  unfold normPdf
  apply div_nonneg (Real.exp_pos _).le
  exact mul_nonneg h (Real.sqrt_nonneg _)

lemma normPdf_pos (x μ σ : ℝ) (h : 0 < σ) : 0 < normPdf x μ σ := by
  unfold normPdf
  apply div_pos (Real.exp_pos _)
  apply mul_pos h
  apply Real.sqrt_pos.mpr
  positivity

lemma auxFactorVH_nonneg (rmax : ℚ) (ngrid b : ℕ) : 0 ≤ auxFactorVH rmax ngrid b := by
  unfold auxFactorVH
  by_cases hb : b = 0
  · subst hb
    rw [Function.update_same]
    positivity
  · rw [Function.update_noteq hb]
    positivity

lemma ffRDF_nonneg (rmax : ℚ) (ngrid b : ℕ) : 0 ≤ ffRDF rmax ngrid b := by
  unfold ffRDF
  split_ifs <;> positivity

/-- The normalization described by the spec's C3 sentence: the
kernel-smoothed histogram contribution divided by `shell_area(indx) × rho`
and by `avg_nsteps`, and by nothing else.  This definition follows the
claim's words and exists only to be compared against `vhGdrtRow`. -/
noncomputable def vhGdrtRowClaim (rmax σ : ℚ) (ngrid avg : ℕ) (rho : ℝ)
    (counts : Multiset ℤ) (b : ℕ) : ℝ :=
  ∑ indx ∈ counts.toFinset,
    normPdf ((gridQ rmax ngrid indx.toNat : ℚ) : ℝ) ((gridQ rmax ngrid b : ℚ) : ℝ)
        ((σ : ℚ) : ℝ) * (counts.count indx : ℝ)
      / auxFactorVH rmax ngrid indx.toNat / rho / (avg : ℝ)

lemma vhGdrtRow_eq_claim_div (rmax σ : ℚ) (ngrid avg nIons : ℕ) (rho : ℝ)
    (counts : Multiset ℤ) (b : ℕ) :
    vhGdrtRow rmax σ ngrid avg nIons rho counts b
      = vhGdrtRowClaim rmax σ ngrid avg rho counts b / (nIons : ℝ) := by
  unfold vhGdrtRow vhGdrtRowClaim vhGaussians
  rw [Finset.sum_div]
  exact Finset.sum_congr rfl (fun indx _ => by ring)

/-- C3 (amended): every distinct-part value `G_d[it][b]` equals the
kernel-smoothed histogram contribution normalized by
`shell_area(indx) × rho` and `1/avg_nsteps` and, in addition, by the number
of tracked ions: the kernel matrix of lines 96-97 is pre-divided by
`avg_nsteps × len(indices)`, so the total normalization carries the extra
`1/num_tracked_ions` factor. -/
theorem claim_C3 (frames : List Struct) (avg ngrid : ℕ) (rmax : ℚ) (ss : ℕ)
    (σ : ℚ) (sp : List String) (it b : ℕ) :
    (vhBody frames avg ngrid rmax ss σ sp).gdrt it b
      = vhGdrtRowClaim rmax σ ngrid avg
          (((matchIndices (frames.headD defaultStruct) sp).length : ℝ)
            / ((volumeQ (frames.headD defaultStruct).lattice : ℚ) : ℝ))
          (vhDistinctCounts frames (matchIndices (frames.headD defaultStruct) sp)
            (frames.headD defaultStruct).lattice rmax ngrid avg
            (frames.length - avg) ss it) b
        / ((matchIndices (frames.headD defaultStruct) sp).length : ℝ) := by
  show vhGdrtRow rmax σ ngrid avg (matchIndices (frames.headD defaultStruct) sp).length
      (((matchIndices (frames.headD defaultStruct) sp).length : ℝ)
        / ((volumeQ (frames.headD defaultStruct).lattice : ℚ) : ℝ))
      (vhDistinctCounts frames (matchIndices (frames.headD defaultStruct) sp)
        (frames.headD defaultStruct).lattice rmax ngrid avg (frames.length - avg) ss it) b
    = _
  exact vhGdrtRow_eq_claim_div _ _ _ _ _ _ _ _

lemma sqrt_quarter : Real.sqrt ((1/4 : ℚ) : ℝ) = 1/2 := by
  rw [show (((1/4 : ℚ)) : ℝ) = (1/2 : ℝ)^2 by norm_num, Real.sqrt_sq (by norm_num)]

lemma quarter_mem_pairD2List :
    (1/4 : ℚ) ∈ pairD2List sLi.lattice 2
      (fun u => trackedCoord [sLi, sLi] (matchIndices sLi ["Li"]) 0 u)
      (fun v => trackedCoord [sLi, sLi] (matchIndices sLi ["Li"]) 0 v) 1 := by
  unfold pairD2List
  rw [List.mem_flatMap]
  refine ⟨0, by decide, ?_⟩
  rw [List.mem_flatMap]
  refine ⟨1, by decide, ?_⟩
  rw [List.mem_map]
  refine ⟨imgZeroIdx 1, ?_, ?_⟩
  · rw [List.mem_filter]
    refine ⟨List.mem_range.mpr (imgZeroIdx_lt 1), by simp⟩
  · rw [getD_imgZeroIdx]
    show pairD2 idLat ![0, 0, 0] ![1/2, 0, 0] (fun _ => 0) = 1/4
    norm_num [pairD2, cartQ, sumSqV, idLat, Fin.sum_univ_three]

lemma counts_C3_mem :
    (0:ℤ) ∈ vhDistinctCounts [sLi, sLi] (matchIndices sLi ["Li"]) sLi.lattice
      4 2 1 1 1 0 := by
  have hcounts : vhDistinctCounts [sLi, sLi] (matchIndices sLi ["Li"]) sLi.lattice 4 2 1 1 1 0
      = accumulate ((4:ℚ) : ℝ) ((drQ 4 2 : ℚ) : ℝ)
          (distinctDists [sLi, sLi] (matchIndices sLi ["Li"]) sLi.lattice 1 0 0) := by
    unfold vhDistinctCounts
    rw [show List.range 1 = [0] from rfl, List.map_cons, List.map_nil, List.sum_cons,
      List.sum_nil, add_zero, show (0 * 1 ⊓ 1 : ℕ) = 0 by omega]
  rw [hcounts]
  unfold accumulate accumulateL
  rw [Multiset.mem_coe, List.mem_map]
  refine ⟨Real.sqrt ((1/4 : ℚ) : ℝ), ?_, ?_⟩
  · rw [List.mem_filter]
    constructor
    · unfold distinctDists
      rw [List.mem_map]
      exact ⟨1/4, quarter_mem_pairD2List, rfl⟩
    · rw [decide_eq_true_eq, sqrt_quarter]
      push_cast
      norm_num
  · rw [sqrt_quarter]
    unfold pyInt
    have hdr : ((drQ 4 2 : ℚ) : ℝ) = 4 := by
      rw [show drQ 4 2 = 4 by norm_num [drQ]]
      norm_num
    rw [hdr, if_pos (by norm_num)]
    rw [show (1/2 : ℝ) / 4 = 1/8 by norm_num]
    rw [Int.floor_eq_zero_iff]
    constructor <;> norm_num

set_option maxRecDepth 8000 in
/-- C3 counterexample: for the concrete two-Li-ion cubic trajectory, the
program's `G_d[0][0]` differs from the value the claim's normalization
(`shell_area × rho` and `1/avg_nsteps` only) prescribes for the same
histogram: the program value carries the extra `1/num_tracked_ions = 1/2`. -/
theorem claim_C3_counterexample :
    (vhBody [sLi, sLi] 1 2 4 1 1 ["Li"]).gdrt 0 0
      ≠ vhGdrtRowClaim 4 1 2 1
          (((matchIndices sLi ["Li"]).length : ℝ) / ((volumeQ sLi.lattice : ℚ) : ℝ))
          (vhDistinctCounts [sLi, sLi] (matchIndices sLi ["Li"]) sLi.lattice
            4 2 1 1 1 0) 0 := by
  have hN : (matchIndices sLi ["Li"]).length = 2 := by decide
  have hlat : sLi.lattice = (1 : Matrix (Fin 3) (Fin 3) ℚ) := by
    funext i j
    fin_cases i <;> fin_cases j <;> simp [sLi, idLat, Matrix.one_apply]
  have hvol : volumeQ sLi.lattice = 1 := by
    rw [hlat]
    unfold volumeQ
    rw [Matrix.det_one, abs_one]
  have hrho : (((matchIndices sLi ["Li"]).length : ℝ)
      / ((volumeQ sLi.lattice : ℚ) : ℝ)) = 2 := by
    rw [hN, hvol]
    norm_num
  have hpos : 0 < vhGdrtRowClaim 4 1 2 1
      (((matchIndices sLi ["Li"]).length : ℝ) / ((volumeQ sLi.lattice : ℚ) : ℝ))
      (vhDistinctCounts [sLi, sLi] (matchIndices sLi ["Li"]) sLi.lattice 4 2 1 1 1 0) 0 := by
    unfold vhGdrtRowClaim
    apply Finset.sum_pos'
    · intro i _
      apply div_nonneg
      apply div_nonneg
      apply div_nonneg
      apply mul_nonneg
      · apply normPdf_nonneg
        norm_num
      · exact Nat.cast_nonneg _
      · exact auxFactorVH_nonneg _ _ _
      · rw [hrho]
        norm_num
      · norm_num
    · refine ⟨0, Multiset.mem_toFinset.mpr counts_C3_mem, ?_⟩
      apply div_pos
      apply div_pos
      apply div_pos
      apply mul_pos
      · apply normPdf_pos
        norm_num
      · have := Multiset.count_pos.mpr counts_C3_mem
        exact_mod_cast this
      · show 0 < auxFactorVH 4 2 (0:ℤ).toNat
        rw [show ((0:ℤ).toNat) = 0 from rfl]
        unfold auxFactorVH
        rw [Function.update_same]
        have : drQ 4 2 = 4 := by norm_num [drQ]
        rw [this]
        positivity
      · rw [hrho]
        norm_num
      · norm_num
  have hbody : (vhBody [sLi, sLi] 1 2 4 1 1 ["Li"]).gdrt 0 0
      = vhGdrtRow 4 1 2 1 (matchIndices sLi ["Li"]).length
          (((matchIndices sLi ["Li"]).length : ℝ) / ((volumeQ sLi.lattice : ℚ) : ℝ))
          (vhDistinctCounts [sLi, sLi] (matchIndices sLi ["Li"]) sLi.lattice
            4 2 1 1 1 0) 0 := rfl
  have hlenR : (((matchIndices sLi ["Li"]).length : ℕ) : ℝ) = 2 := by
    rw [hN]
    norm_num
  rw [hbody, vhGdrtRow_eq_claim_div]
  intro heq
  rw [hlenR] at hpos heq
  linarith

/-! ### C8: RDF and permutation of the ensemble -/

lemma rdfBody_rdf (l : List Struct) (ngrid : ℕ) (rmax : ℚ) (k : ℕ) (σ : ℚ)
    (sp : List String) (b : ℕ) :
    (rdfBody l ngrid rmax k σ sp).rdf b
      = rdfRowL rmax σ ngrid (matchIndices (l.headD defaultStruct) sp).length l.length
          (((matchIndices (l.headD defaultStruct) sp).length : ℝ)
            / ((volumeQ (l.headD defaultStruct).lattice : ℚ) : ℝ))
          (rdfBinList l ngrid rmax k sp) b := rfl

lemma keysInOrder_aux_mem (l : List ℤ) : ∀ (acc : List ℤ) (x : ℤ),
    (x ∈ l.foldl (fun acc x => if x ∈ acc then acc else acc ++ [x]) acc)
      ↔ x ∈ acc ∨ x ∈ l := by
  induction l with
  | nil =>
    intro acc x
    simp
  | cons y ys ih =>
    intro acc x
    rw [List.foldl_cons]
    by_cases hy : y ∈ acc
    · rw [if_pos hy, ih]
      simp only [List.mem_cons]
      constructor
      · rintro (h | h)
        · exact Or.inl h
        · exact Or.inr (Or.inr h)
      · rintro (h | h | h)
        · exact Or.inl h
        · exact Or.inl (by rw [h]; exact hy)
        · exact Or.inr h
    · rw [if_neg hy, ih]
      simp only [List.mem_append, List.mem_singleton, List.mem_cons]
      tauto

lemma keysInOrder_mem (l : List ℤ) (x : ℤ) : x ∈ keysInOrder l ↔ x ∈ l := by
  unfold keysInOrder
  rw [keysInOrder_aux_mem]
  simp

lemma keysInOrder_aux_nodup (l : List ℤ) : ∀ (acc : List ℤ), acc.Nodup →
    (l.foldl (fun acc x => if x ∈ acc then acc else acc ++ [x]) acc).Nodup := by
  induction l with
  | nil =>
    intro acc h
    exact h
  | cons y ys ih =>
    intro acc h
    rw [List.foldl_cons]
    by_cases hy : y ∈ acc
    · rw [if_pos hy]
      exact ih _ h
    · rw [if_neg hy]
      refine ih _ ?_
      rw [List.nodup_append]
      exact ⟨h, List.nodup_singleton y,
        fun a ha hay => hy (by rwa [List.mem_singleton.mp hay] at ha)⟩

lemma keysInOrder_nodup (l : List ℤ) : (keysInOrder l).Nodup :=
  keysInOrder_aux_nodup l [] List.nodup_nil

/-- `most_common(n)` keeps every key when at most `n` distinct keys occur. -/
lemma mostCommonKeys_of_le (binList : List ℤ) (n : ℕ)
    (h : (keysInOrder binList).length ≤ n) :
    mostCommonKeys binList n = keysInOrder binList := by
  unfold mostCommonKeys
  apply List.filter_eq_self.mpr
  intro k _
  rw [decide_eq_true_eq]
  exact le_trans (List.length_filter_le _ _) h

/-- The RDF normalization row depends only on the multiset of bins as long
as the distinct bins fit within `ngrid`. -/
lemma rdfRowL_perm (rmax σ : ℚ) (ngrid nIons nStructs : ℕ) (rho : ℝ)
    (bl1 bl2 : List ℤ) (b : ℕ) (hp : bl1.Perm bl2)
    (h1 : (keysInOrder bl1).length ≤ ngrid) :
    rdfRowL rmax σ ngrid nIons nStructs rho bl1 b
      = rdfRowL rmax σ ngrid nIons nStructs rho bl2 b := by
  have hkp : (keysInOrder bl1).Perm (keysInOrder bl2) :=
    (List.perm_ext_iff_of_nodup (keysInOrder_nodup _) (keysInOrder_nodup _)).mpr
      (fun a => by rw [keysInOrder_mem, keysInOrder_mem, hp.mem_iff])
  have h2 : (keysInOrder bl2).length ≤ ngrid := hkp.length_eq ▸ h1
  unfold rdfRowL
  rw [mostCommonKeys_of_le _ _ h1, mostCommonKeys_of_le _ _ h2]
  have hf : (fun indx : ℤ =>
      if (ngrid : ℤ) - 1 < indx then (0:ℝ)
      else normPdf ((gridQ rmax ngrid b : ℚ) : ℝ)
          ((gridQ rmax ngrid (pyIdx ngrid indx) : ℚ) : ℝ) ((σ : ℚ) : ℝ)
        * (bl1.count indx : ℝ)
        / (nIons : ℝ) / ffRDFIdx rmax ngrid indx / rho / (nStructs : ℝ))
      = (fun indx : ℤ =>
      if (ngrid : ℤ) - 1 < indx then (0:ℝ)
      else normPdf ((gridQ rmax ngrid b : ℚ) : ℝ)
          ((gridQ rmax ngrid (pyIdx ngrid indx) : ℚ) : ℝ) ((σ : ℚ) : ℝ)
        * (bl2.count indx : ℝ)
        / (nIons : ℝ) / ffRDFIdx rmax ngrid indx / rho / (nStructs : ℝ)) := by
    funext indx
    rw [hp.count_eq]
  rw [hf]
  exact (hkp.map _).sum_eq

/-- C8 (amended): for structure lists sharing one lattice and one
species-filtered index layout, the RDF output is unchanged under any
permutation of the list, provided the number of distinct occupied bins is
at most `ngrid`, so that the `most_common(ngrid)` selection of line 290
keeps every occupied bin.  (This holds in particular whenever
`1e-8 < dr`, where every occupied bin lies in `[0, ngrid - 1]`.)  When
more than `ngrid` distinct bins occur, `most_common(ngrid)` breaks count
ties by first-encounter order and the output can depend on the structure
order: see the counterexample. -/
theorem claim_C8 (l1 l2 : List Struct) (ngrid : ℕ) (rmax : ℚ) (k : ℕ) (σ : ℚ)
    (sp : List String) (L : Matrix (Fin 3) (Fin 3) ℚ) (I : List ℕ)
    (hperm : l1.Perm l2) (hlat : ∀ s ∈ l1, s.lattice = L)
    (hidx : ∀ s ∈ l1, matchIndices s sp = I)
    (hbins : (keysInOrder (rdfBinList l1 ngrid rmax k sp)).length ≤ ngrid)
    (b : ℕ) :
    (rdfBody l1 ngrid rmax k σ sp).rdf b = (rdfBody l2 ngrid rmax k σ sp).rdf b := by
  rcases l1 with _ | ⟨s1, t1⟩
  · have h2 : l2 = [] := hperm.symm.eq_nil
    subst h2
    rfl
  · rcases l2 with _ | ⟨s2, t2⟩
    · have := hperm.length_eq
      simp at this
    · have hs1 : s1 ∈ s1 :: t1 := by simp
      have hs2 : s2 ∈ s1 :: t1 := hperm.mem_iff.mpr (by simp)
      have hblperm : (rdfBinList (s1 :: t1) ngrid rmax k sp).Perm
          (rdfBinList (s2 :: t2) ngrid rmax k sp) := by
        unfold rdfBinList
        simp only [List.headD_cons]
        rw [hlat s1 hs1, hidx s1 hs1, hlat s2 hs2, hidx s2 hs2]
        exact (hperm.map (structCountsL L I rmax ngrid k)).flatten
      rw [rdfBody_rdf, rdfBody_rdf]
      simp only [List.headD_cons]
      rw [hlat s1 hs1, hidx s1 hs1, hlat s2 hs2, hidx s2 hs2, hperm.length_eq]
      exact rdfRowL_perm rmax σ ngrid I.length (s2 :: t2).length _ _ _ b hblperm hbins

/-- A second single-Li structure used by the C8 witness. -/
def sLi2 : Struct := ⟨idLat, [("Li", ![1/3, 0, 0])]⟩

/-- A third single-Li structure used by the C8 witness. -/
def sLi3 : Struct := ⟨idLat, [("Li", ![2/3, 0, 0])]⟩

/-- Every bin produced by a surviving distance below `dr` is bin 0. -/
lemma accumulateL_mem_zero (c dr : ℝ) (dists : List ℝ) (hdr : 0 < dr)
    (h : ∀ d ∈ dists, 0 ≤ d ∧ d < dr) :
    ∀ x ∈ accumulateL c dr dists, x = 0 := by
  intro x hx
  unfold accumulateL at hx
  rw [List.mem_map] at hx
  obtain ⟨d, hdf, rfl⟩ := hx
  have hdd := (List.mem_filter.mp hdf).1
  unfold pyInt
  rw [if_pos (div_nonneg (h d hdd).1 hdr.le), Int.floor_eq_zero_iff]
  constructor
  · exact div_nonneg (h d hdd).1 hdr.le
  · rw [div_lt_one hdr]
    exact (h d hdd).2

lemma nodup_const_length_le_one (K : List ℤ) (hnd : K.Nodup)
    (hmem : ∀ x ∈ K, x = 0) : K.length ≤ 1 := by
  rcases K with _ | ⟨x, K2⟩
  · simp
  · rcases K2 with _ | ⟨y, rest⟩
    · simp
    · exfalso
      rw [List.nodup_cons] at hnd
      apply hnd.1
      rw [hmem x (by simp), ← hmem y (by simp)]
      exact List.mem_cons_self y rest

set_option maxRecDepth 100000 in
lemma d2_bound_W : ∀ s ∈ [sLi2, sLi3],
    ∀ q ∈ pairD2List sLi2.lattice (matchIndices sLi2 ["Li"]).length
      (fun u => (s.sites.getD ((matchIndices sLi2 ["Li"]).getD u 0) defaultSite).2)
      (fun v => (s.sites.getD ((matchIndices sLi2 ["Li"]).getD v 0) defaultSite).2) 1,
      0 ≤ q ∧ q < 100 := by
  with_unfolding_all decide

lemma structCountsL_W (s : Struct) (hs : s ∈ [sLi2, sLi3]) :
    ∀ x ∈ structCountsL sLi2.lattice (matchIndices sLi2 ["Li"]) 10 2 1 s, x = (0:ℤ) := by
  intro x hx
  unfold structCountsL at hx
  have hdrv : ((drQ 10 2 : ℚ) : ℝ) = 10 := by
    rw [show drQ 10 2 = 10 from by norm_num [drQ]]
    norm_num
  refine accumulateL_mem_zero _ _ _ ?_ ?_ x hx
  · rw [hdrv]
    norm_num
  · intro d hd
    rw [List.mem_map] at hd
    obtain ⟨q, hq, rfl⟩ := hd
    have hqb := d2_bound_W s hs q hq
    refine ⟨Real.sqrt_nonneg _, ?_⟩
    rw [hdrv, Real.sqrt_lt' (by norm_num)]
    have h100 : ((q : ℚ) : ℝ) < 100 := by exact_mod_cast hqb.2
    exact lt_of_lt_of_eq h100 (by norm_num)

/-- In the witness ensemble every occupied bin is bin 0, so the distinct
bins fit within `ngrid = 2`. -/
lemma binsW : (keysInOrder (rdfBinList [sLi2, sLi3] 2 10 1 ["Li"])).length ≤ 2 := by
  have hz : ∀ x ∈ rdfBinList [sLi2, sLi3] 2 10 1 ["Li"], x = (0:ℤ) := by
    intro x hx
    unfold rdfBinList at hx
    simp only [List.headD_cons] at hx
    rw [List.mem_flatten] at hx
    obtain ⟨blk, hblk, hxblk⟩ := hx
    rw [List.mem_map] at hblk
    obtain ⟨s, hs, rfl⟩ := hblk
    exact structCountsL_W s hs x hxblk
  exact le_trans (nodup_const_length_le_one _ (keysInOrder_nodup _)
    (fun x hx => hz x ((keysInOrder_mem _ _).mp hx))) (by norm_num)

/-- C8 witness: in a two-structure ensemble whose occupied bins fit within
`ngrid`, swapping the ensemble leaves the RDF value at bin 0 unchanged. -/
theorem claim_C8_witness :
    (keysInOrder (rdfBinList [sLi2, sLi3] 2 10 1 ["Li"])).length ≤ 2
    ∧ (rdfBody [sLi2, sLi3] 2 10 1 1 ["Li"]).rdf 0
        = (rdfBody [sLi3, sLi2] 2 10 1 1 ["Li"]).rdf 0 :=
  ⟨binsW, claim_C8 [sLi2, sLi3] [sLi3, sLi2] 2 10 1 1 ["Li"] idLat [0]
    (List.Perm.swap sLi3 sLi2 [])
    (by
      intro s hs
      rcases List.mem_cons.mp hs with h | h
      · rw [h]
        rfl
      · rw [List.mem_singleton.mp h]
        rfl)
    (by
      intro s hs
      rcases List.mem_cons.mp hs with h | h
      · rw [h]
        decide
      · rw [List.mem_singleton.mp h]
        decide)
    binsW
    0⟩

/-- `rmax` for the truncation counterexample: `1e-9`, so the RDF bin width
`dr = rmax / (ngrid - 1) = 1e-9` is below the fixed `1e-8` cutoff slack and
bins beyond `ngrid - 1` can be occupied. -/
def r9 : ℚ := 1/1000000000

/-- Two Li sites `5.5e-9` apart: bin 5 (out of range for `ngrid = 2`). -/
def sA : Struct := ⟨idLat, [("Li", ![0, 0, 0]), ("Li", ![11/2000000000, 0, 0])]⟩

/-- Two Li sites `7.5e-9` apart: bin 7 (out of range for `ngrid = 2`). -/
def sB : Struct := ⟨idLat, [("Li", ![0, 0, 0]), ("Li", ![15/2000000000, 0, 0])]⟩

/-- Two Li sites `1.5e-9` apart: bin 1 (in range for `ngrid = 2`). -/
def sC : Struct := ⟨idLat, [("Li", ![0, 0, 0]), ("Li", ![3/2000000000, 0, 0])]⟩

/-- The tracked-ion coordinate accessor of one counterexample structure
(index layout `[0, 1]`). -/
def pairCoords (s : Struct) : ℕ → Vec3 :=
  fun u => (s.sites.getD (([0, 1] : List ℕ).getD u 0) defaultSite).2

/-- The squared-distance list of one counterexample structure at
`cellrange 1`. -/
def qsOf (s : Struct) : List ℚ :=
  pairD2List idLat 2 (pairCoords s) (pairCoords s) 1

/-- The accumulation over square-rooted rational squared distances, reduced
to exact rational arithmetic: the cutoff filter compares squares. -/
lemma accumulateL_map_sqrt (cq drq : ℚ) (qs : List ℚ) (hc : 0 < cq) :
    accumulateL ((cq : ℚ) : ℝ) ((drq : ℚ) : ℝ)
        (qs.map (fun q => Real.sqrt ((q : ℚ) : ℝ)))
      = (qs.filter (fun q => q < cq ^ 2)).map
          (fun q => pyInt (Real.sqrt ((q : ℚ) : ℝ) / ((drq : ℚ) : ℝ))) := by
  unfold accumulateL
  have hfil : (qs.map (fun q => Real.sqrt ((q : ℚ) : ℝ))).filter
        (fun e => decide (e < ((cq : ℚ) : ℝ)))
      = (qs.filter (fun q => q < cq ^ 2)).map
        (fun q => Real.sqrt ((q : ℚ) : ℝ)) := by
    rw [List.filter_map]
    congr 1
    apply List.filter_congr
    intro q hq
    simp only [Function.comp_apply]
    rw [decide_eq_decide]
    rw [Real.sqrt_lt' (by exact_mod_cast hc)]
    constructor <;> intro h <;> exact_mod_cast h
  rw [hfil, List.map_map]
  rfl

/-- The per-structure bin list of the counterexample, reduced to a rational
filter-and-bin computation. -/
lemma structCountsL_eval (s : Struct) :
    structCountsL idLat [0, 1] r9 2 1 s
      = ((qsOf s).filter (fun q => q < (11/1000000000 : ℚ) ^ 2)).map
          (fun q => pyInt (Real.sqrt ((q : ℚ) : ℝ) / ((drQ r9 2 : ℚ) : ℝ))) := by
  show accumulateL (((r9 : ℚ) : ℝ) + 1 / 100000000) ((drQ r9 2 : ℚ) : ℝ)
      ((qsOf s).map (fun q => Real.sqrt ((q : ℚ) : ℝ))) = _
  rw [show (((r9 : ℚ) : ℝ) + 1 / 100000000) = ((11/1000000000 : ℚ) : ℝ) from by
    unfold r9
    push_cast
    norm_num]
  exact accumulateL_map_sqrt (11/1000000000) (drQ r9 2) (qsOf s) (by norm_num)

set_option maxRecDepth 200000 in
lemma filterA : (qsOf sA).filter (fun q => q < (11/1000000000 : ℚ) ^ 2)
    = [121/4000000000000000000, 121/4000000000000000000] := by
  with_unfolding_all rfl

set_option maxRecDepth 200000 in
lemma filterB : (qsOf sB).filter (fun q => q < (11/1000000000 : ℚ) ^ 2)
    = [225/4000000000000000000, 225/4000000000000000000] := by
  with_unfolding_all rfl

set_option maxRecDepth 200000 in
lemma filterC : (qsOf sC).filter (fun q => q < (11/1000000000 : ℚ) ^ 2)
    = [9/4000000000000000000, 9/4000000000000000000] := by
  with_unfolding_all rfl

lemma sqrt_q_eval (q : ℚ) (a : ℝ) (ha : 0 ≤ a) (h : ((q : ℚ) : ℝ) = a ^ 2) :
    Real.sqrt ((q : ℚ) : ℝ) = a := by
  rw [h, Real.sqrt_sq ha]

lemma pyInt_eval (x : ℝ) (z : ℤ) (hz : 0 ≤ (z : ℝ)) (h2 : (z : ℝ) ≤ x)
    (h3 : x < (z : ℝ) + 1) : pyInt x = z := by
  unfold pyInt
  rw [if_pos (le_trans hz h2), Int.floor_eq_iff]
  exact ⟨h2, h3⟩

lemma drQ_r9 : ((drQ r9 2 : ℚ) : ℝ) = 1/1000000000 := by
  rw [show drQ r9 2 = 1/1000000000 from by unfold drQ r9; norm_num]
  push_cast
  norm_num

lemma countsA : structCountsL idLat [0, 1] r9 2 1 sA = [5, 5] := by
  rw [structCountsL_eval, filterA]
  rw [List.map_cons, List.map_cons, List.map_nil]
  rw [sqrt_q_eval (121/4000000000000000000) (11/2000000000) (by norm_num)
    (by push_cast; norm_num)]
  rw [drQ_r9]
  rw [pyInt_eval ((11/2000000000 : ℝ) / (1/1000000000)) 5 (by norm_num) (by norm_num)
    (by norm_num)]

lemma countsB : structCountsL idLat [0, 1] r9 2 1 sB = [7, 7] := by
  rw [structCountsL_eval, filterB]
  rw [List.map_cons, List.map_cons, List.map_nil]
  rw [sqrt_q_eval (225/4000000000000000000) (15/2000000000) (by norm_num)
    (by push_cast; norm_num)]
  rw [drQ_r9]
  rw [pyInt_eval ((15/2000000000 : ℝ) / (1/1000000000)) 7 (by norm_num) (by norm_num)
    (by norm_num)]

lemma countsC : structCountsL idLat [0, 1] r9 2 1 sC = [1, 1] := by
  rw [structCountsL_eval, filterC]
  rw [List.map_cons, List.map_cons, List.map_nil]
  rw [sqrt_q_eval (9/4000000000000000000) (3/2000000000) (by norm_num)
    (by push_cast; norm_num)]
  rw [drQ_r9]
  rw [pyInt_eval ((3/2000000000 : ℝ) / (1/1000000000)) 1 (by norm_num) (by norm_num)
    (by norm_num)]

lemma binList1 : rdfBinList [sA, sB, sC] 2 r9 1 ["Li"] = [5, 5, 7, 7, 1, 1] := by
  unfold rdfBinList
  simp only [List.headD_cons]
  rw [show sA.lattice = idLat from rfl,
    show matchIndices sA ["Li"] = [0, 1] from by decide]
  rw [List.map_cons, List.map_cons, List.map_cons, List.map_nil]
  rw [countsA, countsB, countsC]
  rfl

lemma binList2 : rdfBinList [sC, sA, sB] 2 r9 1 ["Li"] = [1, 1, 5, 5, 7, 7] := by
  unfold rdfBinList
  simp only [List.headD_cons]
  rw [show sC.lattice = idLat from rfl,
    show matchIndices sC ["Li"] = [0, 1] from by decide]
  rw [List.map_cons, List.map_cons, List.map_cons, List.map_nil]
  rw [countsC, countsA, countsB]
  rfl

/-- `most_common(2)` of `[5, 5, 7, 7, 1, 1]`: all counts tie at 2, dict
order keeps `5` then `7`; the in-range bin `1` is truncated away. -/
lemma mc1 : mostCommonKeys [5, 5, 7, 7, 1, 1] 2 = [5, 7] := by decide

/-- `most_common(2)` of `[1, 1, 5, 5, 7, 7]`: dict order now keeps `1`
then `5`, so the in-range bin `1` survives. -/
lemma mc2 : mostCommonKeys [1, 1, 5, 5, 7, 7] 2 = [1, 5] := by decide

lemma volumeQ_idLat : volumeQ idLat = 1 := by
  have hlat : idLat = (1 : Matrix (Fin 3) (Fin 3) ℚ) := by
    funext i j
    fin_cases i <;> fin_cases j <;> simp [idLat, Matrix.one_apply]
  rw [hlat]
  unfold volumeQ
  rw [Matrix.det_one, abs_one]

lemma rdf_l1_zero : (rdfBody [sA, sB, sC] 2 r9 1 1 ["Li"]).rdf 0 = 0 := by
  rw [rdfBody_rdf, binList1]
  unfold rdfRowL
  rw [mc1]
  rw [List.map_cons, List.map_cons, List.map_nil]
  rw [if_pos (show ((2:ℕ) : ℤ) - 1 < 5 from by norm_num),
    if_pos (show ((2:ℕ) : ℤ) - 1 < 7 from by norm_num)]
  simp

lemma rdf_l2_pos : 0 < (rdfBody [sC, sA, sB] 2 r9 1 1 ["Li"]).rdf 0 := by
  rw [rdfBody_rdf, binList2]
  simp only [List.headD_cons]
  unfold rdfRowL
  rw [mc2]
  rw [List.map_cons, List.map_cons, List.map_nil]
  rw [if_neg (show ¬ (((2:ℕ) : ℤ) - 1 < 1) from by norm_num),
    if_pos (show ((2:ℕ) : ℤ) - 1 < 5 from by norm_num)]
  simp only [List.sum_cons, List.sum_nil, add_zero]
  apply div_pos
  apply div_pos
  apply div_pos
  apply div_pos
  apply mul_pos
  · apply normPdf_pos
    norm_num
  · rw [show ([1, 1, 5, 5, 7, 7] : List ℤ).count 1 = 2 from by decide]
    norm_num
  · rw [show matchIndices sC ["Li"] = [0, 1] from by decide]
    norm_num
  · unfold ffRDFIdx
    rw [if_neg (by norm_num)]
    rw [show pyIdx 2 1 = 1 from rfl]
    rw [show gridQ r9 2 1 = 1/1000000000 from by unfold gridQ r9; norm_num]
    rw [show ((1/1000000000 : ℚ) : ℝ) = 1/1000000000 from by push_cast; norm_num]
    positivity
  · rw [show sC.lattice = idLat from rfl, volumeQ_idLat,
      show matchIndices sC ["Li"] = [0, 1] from by decide]
    norm_num
  · norm_num

/-- C8 counterexample: a rotation of a three-structure ensemble (shared
lattice, shared index layout) changes the RDF value at bin 0.  With
`rmax = 1e-9` the bin width `dr = 1e-9` is below the fixed `1e-8` cutoff
slack, the occupied bins are `{5, 7, 1}` (three distinct, more than
`ngrid = 2`), all counts tie at 2, and `most_common(2)` keeps the two bins
first encountered: `{5, 7}` (both skipped as out of range, value 0) for
one structure order, `{1, 5}` (bin 1 in range, positive value) after the
rotation. -/
theorem claim_C8_counterexample :
    ([sA, sB, sC] : List Struct).Perm [sC, sA, sB]
    ∧ (∀ s ∈ ([sA, sB, sC] : List Struct), s.lattice = idLat)
    ∧ (∀ s ∈ ([sA, sB, sC] : List Struct), matchIndices s ["Li"] = [0, 1])
    ∧ (rdfBody [sA, sB, sC] 2 r9 1 1 ["Li"]).rdf 0
        ≠ (rdfBody [sC, sA, sB] 2 r9 1 1 ["Li"]).rdf 0 := by
  refine ⟨?_, ?_, ?_, ?_⟩
  · exact (List.Perm.cons sA (List.Perm.swap sC sB [])).trans (List.Perm.swap sC sA [sB])
  · intro s hs
    rcases List.mem_cons.mp hs with h | hs
    · rw [h]
      rfl
    rcases List.mem_cons.mp hs with h | hs
    · rw [h]
      rfl
    · rw [List.mem_singleton.mp hs]
      rfl
  · intro s hs
    rcases List.mem_cons.mp hs with h | hs
    · rw [h]
      decide
    rcases List.mem_cons.mp hs with h | hs
    · rw [h]
      decide
    · rw [List.mem_singleton.mp hs]
      decide
  · rw [rdf_l1_zero]
    exact ne_of_lt rdf_l2_pos

/-! ### C9: non-negativity of the output arrays -/

lemma vhGdrtRow_nonneg (rmax σ : ℚ) (ngrid avg nIons : ℕ) (rho : ℝ)
    (counts : Multiset ℤ) (b : ℕ) (hσ : 0 ≤ σ) (hrho : 0 ≤ rho) :
    0 ≤ vhGdrtRow rmax σ ngrid avg nIons rho counts b := by
  unfold vhGdrtRow vhGaussians
  refine Finset.sum_nonneg (fun i _ => ?_)
  have h1 : (0:ℝ) ≤ ((σ : ℚ) : ℝ) := by exact_mod_cast hσ
  exact div_nonneg (div_nonneg (mul_nonneg (div_nonneg (div_nonneg
    (normPdf_nonneg _ _ _ h1) (Nat.cast_nonneg _)) (Nat.cast_nonneg _))
    (Nat.cast_nonneg _)) (auxFactorVH_nonneg _ _ _)) hrho

lemma ffRDFIdx_nonneg (rmax : ℚ) (ngrid : ℕ) (indx : ℤ) :
    0 ≤ ffRDFIdx rmax ngrid indx := by
  unfold ffRDFIdx
  split_ifs
  · positivity
  · positivity

/-- On the non-negative keys (the only ones the binning can produce) the
wrapping-index shell normalization agrees with `ffRDF`. -/
lemma ffRDFIdx_eq_ffRDF (rmax : ℚ) (ngrid : ℕ) (indx : ℤ) (h0 : 0 ≤ indx) :
    ffRDFIdx rmax ngrid indx = ffRDF rmax ngrid indx.toNat := by
  unfold ffRDFIdx ffRDF pyIdx
  rw [if_neg (not_lt.mpr h0)]
  by_cases hz : indx = 0
  · rw [if_pos hz, if_pos (by rw [hz]; rfl)]
  · rw [if_neg hz, if_neg (by omega)]

lemma rdfRowL_nonneg (rmax σ : ℚ) (ngrid nIons nStructs : ℕ) (rho : ℝ)
    (binList : List ℤ) (b : ℕ) (hσ : 0 ≤ σ) (hrho : 0 ≤ rho) :
    0 ≤ rdfRowL rmax σ ngrid nIons nStructs rho binList b := by
  unfold rdfRowL
  apply List.sum_nonneg
  intro x hx
  rw [List.mem_map] at hx
  obtain ⟨indx, _, rfl⟩ := hx
  have h1 : (0:ℝ) ≤ ((σ : ℚ) : ℝ) := by exact_mod_cast hσ
  split_ifs
  · exact le_rfl
  · exact div_nonneg (div_nonneg (div_nonneg (div_nonneg (mul_nonneg
      (normPdf_nonneg _ _ _ h1) (Nat.cast_nonneg _)) (Nat.cast_nonneg _))
      (ffRDFIdx_nonneg _ _ _)) hrho) (Nat.cast_nonneg _)

lemma rho_cast_nonneg (L : Matrix (Fin 3) (Fin 3) ℚ) (n : ℕ) :
    (0:ℝ) ≤ (n : ℝ) / ((volumeQ L : ℚ) : ℝ) := by
  apply div_nonneg (Nat.cast_nonneg _)
  have h : (0:ℚ) ≤ volumeQ L := abs_nonneg _
  exact_mod_cast h

/-- C9: whenever construction succeeds (all parameter checks pass, and for
the RDF also the non-empty species check), every entry of the distinct-part
van Hove array `G_d` and of the RDF array is non-negative. -/
theorem claim_C9 :
    (∀ (frames : List Struct) (avg ngrid : ℕ) (rmax : ℚ) (ss : ℤ) (σ : ℚ)
      (sp : List String) (out : VHOut),
      vanHoveInit frames avg ngrid rmax ss σ sp = .ok out →
      ∀ it b, 0 ≤ out.gdrt it b)
    ∧ (∀ (structs : List Struct) (ngrid : ℕ) (rmax : ℚ) (cr : ℕ) (σ : ℚ)
      (sp : List String) (out : RDFOut),
      rdfInit structs ngrid rmax cr σ sp = .ok out →
      ∀ b, 0 ≤ out.rdf b) := by
  constructor
  · intro frames avg ngrid rmax ss σ sp out h it b
    unfold vanHoveInit at h
    split_ifs at h with h1 h2 h3 h4
    rw [Except.ok.injEq] at h
    subst h
    exact vhGdrtRow_nonneg _ _ _ _ _ _ _ _ (le_of_lt (not_le.mp h4))
      (rho_cast_nonneg _ _)
  · intro structs ngrid rmax cr σ sp out h b
    unfold rdfInit at h
    split_ifs at h with h1 h2 h3
    rw [Except.ok.injEq] at h
    subst h
    rw [rdfBody_rdf]
    exact rdfRowL_nonneg _ _ _ _ _ _ _ _ (le_of_lt (not_le.mp h2))
      (rho_cast_nonneg _ _)

/-- C9 witness: a successful van Hove construction and a successful RDF
construction with non-negative entries at concrete indices. -/
theorem claim_C9_witness :
    0 ≤ (vhBody [sLi, sLi] 1 2 10 1 1 ["Li"]).gdrt 0 0
    ∧ 0 ≤ (rdfBody [sLi] 2 10 1 1 ["Li"]).rdf 0 :=
  ⟨claim_C9.1 [sLi, sLi] 1 2 10 1 1 ["Li"] _ rfl 0 0,
   claim_C9.2 [sLi] 2 10 1 1 ["Li"] _ rfl 0⟩
